import Mathlib

/-!
Verification of the query-building and transaction-execution core of the
pglink-lite library (src/lib/core/dataAccess.js, class DataAccess).

The JavaScript source is shallowly embedded: JS values become the inductive
JVal, the pooled-connection lease record this.client becomes LeaseState,
the Transaction method becomes a deterministic state-passing interpreter in
which the database driver is an explicit environment (TxEnv) describing
which queries fail and which rows they return, and async/await is erased
(the pg driver serializes all queries issued on one client, so the
Promise.all dispatch in the source is observationally sequential in
statement order).
-/

namespace PglinkLite

/-- A JavaScript runtime value, as far as the data access layer needs:
undefined, null, numbers, strings, booleans, arrays and plain objects
(insertion-ordered key/value lists). -/
inductive JVal where
  | undef : JVal
  | jnull : JVal
  | num : Int → JVal
  | str : String → JVal
  | jbool : Bool → JVal
  | arr : List JVal → JVal
  | obj : List (String × JVal) → JVal
deriving Repr

mutual

/-- Structural equality test for JVal (needed because DecidableEq cannot be
derived for this nested inductive on this toolchain). -/
def jvalBEq : JVal → JVal → Bool
  | JVal.undef, JVal.undef => true
  | JVal.jnull, JVal.jnull => true
  | JVal.num a, JVal.num b => a == b
  | JVal.str a, JVal.str b => a == b
  | JVal.jbool a, JVal.jbool b => a == b
  | JVal.arr a, JVal.arr b => jvalListBEq a b
  | JVal.obj a, JVal.obj b => jvalObjBEq a b
  | _, _ => false

def jvalListBEq : List JVal → List JVal → Bool
  | [], [] => true
  | a :: as_, b :: bs => jvalBEq a b && jvalListBEq as_ bs
  | _, _ => false

def jvalObjBEq : List (String × JVal) → List (String × JVal) → Bool
  | [], [] => true
  | (k, v) :: as_, (k', v') :: bs => k == k' && jvalBEq v v' && jvalObjBEq as_ bs
  | _, _ => false

end

mutual

theorem jvalBEq_iff : ∀ a b : JVal, jvalBEq a b = true ↔ a = b
  | JVal.undef, b => by cases b <;> simp [jvalBEq]
  | JVal.jnull, b => by cases b <;> simp [jvalBEq]
  | JVal.num a, b => by cases b <;> simp [jvalBEq]
  | JVal.str a, b => by cases b <;> simp [jvalBEq]
  | JVal.jbool a, b => by cases b <;> simp [jvalBEq]
  | JVal.arr a, b => by
      cases b <;> simp [jvalBEq]
      exact jvalListBEq_iff a _
  | JVal.obj a, b => by
      cases b <;> simp [jvalBEq]
      exact jvalObjBEq_iff a _

theorem jvalListBEq_iff : ∀ a b : List JVal, jvalListBEq a b = true ↔ a = b
  | [], [] => by simp [jvalListBEq]
  | [], _ :: _ => by simp [jvalListBEq]
  | _ :: _, [] => by simp [jvalListBEq]
  | a :: as_, b :: bs => by
      simp only [jvalListBEq, Bool.and_eq_true, List.cons.injEq]
      exact and_congr (jvalBEq_iff a b) (jvalListBEq_iff as_ bs)

theorem jvalObjBEq_iff : ∀ a b : List (String × JVal), jvalObjBEq a b = true ↔ a = b
  | [], [] => by simp [jvalObjBEq]
  | [], _ :: _ => by simp [jvalObjBEq]
  | _ :: _, [] => by simp [jvalObjBEq]
  | (k, v) :: as_, (k', v') :: bs => by
      simp only [jvalObjBEq, Bool.and_eq_true, List.cons.injEq, beq_iff_eq, Prod.mk.injEq]
      constructor
      · rintro ⟨⟨h1, h2⟩, h3⟩
        exact ⟨⟨h1, (jvalBEq_iff v v').mp h2⟩, (jvalObjBEq_iff as_ bs).mp h3⟩
      · rintro ⟨⟨h1, h2⟩, h3⟩
        exact ⟨⟨h1, (jvalBEq_iff v v').mpr h2⟩, (jvalObjBEq_iff as_ bs).mpr h3⟩

end

instance : DecidableEq JVal := fun a b =>
  decidable_of_iff (jvalBEq a b = true) (jvalBEq_iff a b)

/-- JS truthiness test (the source relies on it in `if (!alias)`,
`if (whereClause)` and `params[p] || null`): undefined, null, 0, the empty
string and false are falsy; everything else (including all arrays and
objects) is truthy. -/
def jsFalsy : JVal → Bool
  | JVal.undef => true
  | JVal.jnull => true
  | JVal.num n => n == 0
  | JVal.str s => s == ""
  | JVal.jbool b => !b
  | JVal.arr _ => false
  | JVal.obj _ => false

mutual

/-- JS template-literal stringification of a value, as used by the source
in backquoted strings such as the synthesized WHERE clause:
numbers print their decimal form, null prints "null",
undefined prints "undefined", arrays join their elements with commas and
plain objects print "[object Object]". -/
def jsShow : JVal → String
  | JVal.undef => "undefined"
  | JVal.jnull => "null"
  | JVal.num n => toString n
  | JVal.str s => s
  | JVal.jbool b => if b then "true" else "false"
  | JVal.arr xs => jsShowList xs
  | JVal.obj _ => "[object Object]"

def jsShowList : List JVal → String
  | [] => ""
  | [x] => jsShow x
  | x :: y :: rest => jsShow x ++ "," ++ jsShowList (y :: rest)

end

/-- The JS expression `v || null` from the synthesized WHERE clause of
GenerateUpdateSQL: a falsy value collapses to null. -/
def jsOrNull (v : JVal) : JVal := if jsFalsy v then JVal.jnull else v

/-! ## The connection lease (the `this.client` record and the pool)

The source keeps `this.client = { instance, count }` where `instance` is the
currently leased pooled connection (or null) and `count` is the reuse
counter. We additionally track the pool's books: `checkedOut` is the number
of connections currently checked out of the pool, `returned` counts normal
returns to the pool (`release()`), `destroyed` counts discards
(`release(err)`), and `nextId` produces fresh connection handles. -/
structure LeaseState where
  inst : Option Nat
  count : Nat
  checkedOut : Nat
  returned : Nat
  destroyed : Nat
  nextId : Nat
deriving Repr, DecidableEq

/-- `initialClient` from dataAccess.js: if no connection is leased, check a
fresh one out of the pool with reuse count 1; otherwise bump the count and
return the same handle. Returns the handle together with the new state. -/
def initialClient (s : LeaseState) : Nat × LeaseState :=
  match s.inst with
  | none =>
      (s.nextId,
        { s with
            inst := some s.nextId
            count := 1
            checkedOut := s.checkedOut + 1
            nextId := s.nextId + 1 })
  | some c => (c, { s with count := s.count + 1 })

/-- `releaseClient(e)` from dataAccess.js: with an error the connection is
discarded (released back with the error, removing it from the pool) and the
record reset; without one the count is decremented, and the connection is
physically returned to the pool only when the count was at most 1. -/
def releaseClient (e : Bool) (s : LeaseState) : LeaseState :=
  match s.inst with
  | none => s
  | some _ =>
      if e then
        { s with
            inst := none
            count := 0
            checkedOut := s.checkedOut - 1
            destroyed := s.destroyed + 1 }
      else if s.count ≤ 1 then
        { s with
            inst := none
            count := 0
            checkedOut := s.checkedOut - 1
            returned := s.returned + 1 }
      else
        { s with count := s.count - 1 }

/-! ## The Transaction executor

`Transaction(args, transaction)` from dataAccess.js, embedded as a
deterministic interpreter. The database driver is an environment: `stmtFails`
says which sql texts raise when executed, `stmtRows` gives the rows a
successful statement returns, and the three flags make BEGIN / COMMIT /
ROLLBACK themselves fail. The database is a list of committed statement
effects; statements executed since BEGIN sit in `pending` until COMMIT
appends them to `db` (ROLLBACK, or a dead connection after a failed
ROLLBACK, discards them — the server never applies uncommitted work). Every
query sent over the connection is appended to `log`. -/

/-- One element of `args.params`: sql text, bound replacements, and the
optional alias used when `returnWithAlias` is set. -/
structure Stmt where
  sql : String
  replacements : List JVal := []
  alias? : Option String := none
deriving Repr, DecidableEq

/-- The driver environment: which queries fail and what rows they return. -/
structure TxEnv where
  stmtFails : String → Bool
  stmtRows : String → List JVal
  beginFails : Bool := false
  commitFails : Bool := false
  rollbackFails : Bool := false

/-- The observable state threaded through a Transaction call. -/
structure TxState where
  db : List String
  pending : List String
  inTxn : Bool
  lease : LeaseState
  log : List String
deriving Repr, DecidableEq

/-- Options of `Transaction` (the `args` object minus `params`). -/
structure TxArgs where
  params : List Stmt := []
  returnWithAlias : Bool := false
  returnSingleRecord : Bool := false
  forceFlat : Bool := false
deriving Repr

/-- Send a query over the leased connection (it shows up in the log). -/
def issueQuery (q : String) (s : TxState) : TxState :=
  { s with log := s.log ++ [q] }

/-- JS `result[alias] = res.rows` on an object: set the key, overwriting an
existing entry in place, appending otherwise. -/
def objSet : List (String × JVal) → String → JVal → List (String × JVal)
  | [], k, v => [(k, v)]
  | (k', v') :: rest, k, v =>
      if k' = k then (k, v) :: rest else (k', v') :: objSet rest k v

/-- Collect one statement's rows into the result container, keyed by alias
when `returnWithAlias` is set, pushed onto the array otherwise. -/
def pushResult (rwa : Bool) (alias? : Option String) (rows : List JVal)
    (acc : JVal) : JVal :=
  if rwa then
    match acc with
    | JVal.obj m => JVal.obj (objSet m (alias?.getD "undefined") (JVal.arr rows))
    | v => v
  else
    match acc with
    | JVal.arr xs => JVal.arr (xs ++ [JVal.arr rows])
    | v => v

/-- JS falsiness of the alias value (`!alias`): absent or the empty string. -/
def aliasFalsy : Option String → Bool
  | none => true
  | some s => s == ""

/-- The error message the source throws for a missing alias. -/
def missingAliasMsg : String :=
  "alias should be string when returnWithAlias is true, but got undefined or null"

/-- The body of `params.map(async p => ...)` under `Promise.all`, run in
statement order (the pg client serializes queries issued on one
connection): per statement, first the alias check, then the query; a
successful statement's effect joins `pending` and its rows join the
accumulator. The first failure aborts the remaining statements. -/
def runStmts (env : TxEnv) (rwa : Bool) :
    List Stmt → JVal → TxState → Except String JVal × TxState
  | [], acc, s => (Except.ok acc, s)
  | p :: rest, acc, s =>
      if rwa && aliasFalsy p.alias? then
        (Except.error missingAliasMsg, s)
      else
        let s1 := issueQuery p.sql s
        if env.stmtFails p.sql then
          (Except.error ("query failed: " ++ p.sql), s1)
        else
          let s2 := { s1 with pending := s1.pending ++ [p.sql] }
          runStmts env rwa rest
            (pushResult rwa p.alias? (env.stmtRows p.sql) acc) s2

/-- JS `Array.prototype.flat()` (depth 1): splice array elements, keep the
rest. -/
def jflat : List JVal → List JVal
  | [] => []
  | JVal.arr xs :: rest => xs ++ jflat rest
  | v :: rest => v :: jflat rest

/-- The result-shaping block of Transaction: only applies to array results
(`finalRes instanceof Array`); flattens one level when a single statement
was run or `forceFlat` is set, then `[finalRes] = finalRes` takes the first
element (undefined when there is none) under `returnSingleRecord`. -/
def shapeResult (n : Nat) (returnSingleRecord forceFlat : Bool)
    (collected : JVal) : JVal :=
  match collected with
  | JVal.arr xs =>
      let xs1 := if n == 1 || forceFlat then jflat xs else xs
      if returnSingleRecord then xs1.headD JVal.undef else JVal.arr xs1
  | v => v

/-- The catch block of Transaction: issue ROLLBACK; if that also fails the
source logs it, calls `releaseClient()` (without the error!) and re-raises
the rollback error, otherwise `releaseClient()` and re-raise the original
error. Uncommitted work is discarded either way (the server never commits
it). -/
def rollbackPath (env : TxEnv) (err : String) (s : TxState) :
    Except String JVal × TxState :=
  let s1 := issueQuery "ROLLBACK" s
  let s2 := { s1 with
                pending := []
                inTxn := false
                lease := releaseClient false s1.lease }
  if env.rollbackFails then
    (Except.error "rollback failed", s2)
  else
    (Except.error err, s2)

/-- `Transaction(args, transaction)` from dataAccess.js (the `args`
null-checks, which raise before anything else happens, are elided — the
embedding's `args` is always a well-formed record). An empty `params`
returns `transaction([])` or `[]` without touching the connection. Otherwise
a connection is leased, BEGIN issued, the statements run, the result shaped,
the optional hook invoked on the shaped result (its return value is
discarded), then COMMIT and a normal release; any failure inside the try
block lands in `rollbackPath`. -/
def Transaction (env : TxEnv) (args : TxArgs)
    (hook? : Option (JVal → Except String JVal)) (s : TxState) :
    Except String JVal × TxState :=
  if args.params.isEmpty then
    match hook? with
    | some h => (h (JVal.arr []), s)
    | none => (Except.ok (JVal.arr []), s)
  else
    let ls := (initialClient s.lease).2
    let s1 := issueQuery "BEGIN" { s with lease := ls }
    if env.beginFails then
      rollbackPath env "begin failed" s1
    else
      let s2 := { s1 with inTxn := true }
      let acc0 := if args.returnWithAlias then JVal.obj [] else JVal.arr []
      match runStmts env args.returnWithAlias args.params acc0 s2 with
      | (Except.error e, s3) => rollbackPath env e s3
      | (Except.ok collected, s3) =>
          let finalRes :=
            shapeResult args.params.length args.returnSingleRecord
              args.forceFlat collected
          let hookRes :=
            match hook? with
            | some h => h finalRes
            | none => Except.ok finalRes
          match hookRes with
          | Except.error e => rollbackPath env e s3
          | Except.ok _ =>
              let s4 := issueQuery "COMMIT" s3
              if env.commitFails then
                rollbackPath env "commit failed" s4
              else
                (Except.ok finalRes,
                  { s4 with
                      db := s4.db ++ s4.pending
                      pending := []
                      inTxn := false
                      lease := releaseClient false s4.lease })

/-- Modelled from the spec: the `preserveClient` option of Transaction.
The revision of dataAccess.js implementing it is not under src/ — only the
README documents it ("Build20201029: Add preserveClient for leaving the
client open for further operations in the transaction"; "Skips committing
the operation, leaving the client open for further operations in the
transaction"). Per the spec, a call with `preserveClient` set behaves like
`Transaction` except that on the success path COMMIT is deliberately
skipped and the leased connection is not released, so the caller can keep
issuing statements on it and commit later; failures still roll back. -/
def TransactionPreserve (env : TxEnv) (args : TxArgs)
    (hook? : Option (JVal → Except String JVal)) (s : TxState) :
    Except String JVal × TxState :=
  if args.params.isEmpty then
    match hook? with
    | some h => (h (JVal.arr []), s)
    | none => (Except.ok (JVal.arr []), s)
  else
    let ls := (initialClient s.lease).2
    let s1 := issueQuery "BEGIN" { s with lease := ls }
    if env.beginFails then
      rollbackPath env "begin failed" s1
    else
      let s2 := { s1 with inTxn := true }
      let acc0 := if args.returnWithAlias then JVal.obj [] else JVal.arr []
      match runStmts env args.returnWithAlias args.params acc0 s2 with
      | (Except.error e, s3) => rollbackPath env e s3
      | (Except.ok collected, s3) =>
          let finalRes :=
            shapeResult args.params.length args.returnSingleRecord
              args.forceFlat collected
          let hookRes :=
            match hook? with
            | some h => h finalRes
            | none => Except.ok finalRes
          match hookRes with
          | Except.error e => rollbackPath env e s3
          | Except.ok _ => (Except.ok finalRes, s3)

/-! ## The clause validator

`cleanWhereClause`, `CheckWhereClauseOperator` and `CheckWhereClause` from
dataAccess.js, embedded over `List Char`. JS regex word characters are
[A-Za-z0-9_]; a word boundary holds where a word character is not preceded
(resp. followed) by another word character. The validator functions return
`true` where the source returns normally and `false` where it throws. -/

/-- JS regex `\w`: ASCII letters, digits and underscore. -/
def isWordChar (c : Char) : Bool := c.isAlpha || c.isDigit || c == '_'

/-- `\b` holds before the current position given the previous character
(none at the start of the string), when the next character is a word
character. -/
def bBefore : Option Char → Bool
  | none => true
  | some c => !isWordChar c

/-- `\b` holds after a word character at the front of the given remainder. -/
def bAfter : List Char → Bool
  | [] => true
  | c :: _ => !isWordChar c

/-- Drop an exact prefix (used to match the literal text of a word). -/
def dropWordPfx : List Char → List Char → Option (List Char)
  | [], l => some l
  | _ :: _, [] => none
  | w :: ws, c :: cs => if w = c then dropWordPfx ws cs else none

/-- Does the word-bounded pattern `\b<w>\b` match at the front of `l`
(the boundary before the front is the caller's business)? -/
def wordAtFront (w : List Char) (l : List Char) : Bool :=
  match dropWordPfx w l with
  | some r => bAfter r
  | none => false

/-- Number of positions at which `\b<w>\b` matches, scanning with the
previous character as boundary context. The words used by the source (IN,
NOT IN, LIKE, BETWEEN) admit no overlapping word-bounded matches, so this
equals the JS `split(regex).length - 1` and `search(regex) !== -1` is
equivalent to this being nonzero. -/
def countWordAux (w : List Char) : Option Char → List Char → Nat
  | _, [] => 0
  | prev, c :: rest =>
      (if bBefore prev && wordAtFront w (c :: rest) then 1 else 0) +
        countWordAux w (some c) rest

/-- Word-bounded occurrence count over a whole string. -/
def countWord (w : List Char) (l : List Char) : Nat := countWordAux w none l

/-- Does an exact (non word-bounded) prefix match hold? -/
def hasPfx : List Char → List Char → Bool
  | [], _ => true
  | _ :: _, [] => false
  | p :: ps, c :: cs => p == c && hasPfx ps cs

/-- Number of positions at which the plain substring `pat` occurs. The
string operators of the source (=, >, <, <=, >=, !=) admit no overlapping
occurrences, so this equals the JS `split(pat).length - 1`, and
`indexOf(pat) !== -1` is equivalent to this being nonzero. -/
def countSub (pat : List Char) : List Char → Nat
  | [] => 0
  | c :: rest => (if hasPfx pat (c :: rest) then 1 else 0) + countSub pat rest

/-- One entry of `this.op` (second revision): either a plain string
operator or a word-bounded regex operator. -/
inductive OpPat where
  | sub : List Char → OpPat
  | word : List Char → OpPat
deriving Repr, DecidableEq

/-- `this.op` from the DataAccess constructor (second revision): the six
string comparators plus the word-bounded IN, NOT IN and LIKE regexes
(BETWEEN is handled separately by CheckWhereClause). -/
def opsList : List OpPat :=
  [OpPat.sub ['='], OpPat.sub ['>'], OpPat.sub ['<'],
   OpPat.sub ['<', '='], OpPat.sub ['>', '='], OpPat.sub ['!', '='],
   OpPat.word ['I', 'N'],
   OpPat.word ['N', 'O', 'T', ' ', 'I', 'N'],
   OpPat.word ['L', 'I', 'K', 'E']]

/-- Occurrence count of one operator pattern in a statement segment. -/
def opCount (st : List Char) : OpPat → Nat
  | OpPat.sub p => countSub p st
  | OpPat.word w => countWord w st

/-- The per-operator condition of the `every` loop in
CheckWhereClauseOperator: `search(p) !== -1 && split(p).length === 2`,
i.e. exactly one occurrence. -/
def opHit (st : List Char) (p : OpPat) : Bool := opCount st p == 1

/-- The `this.op.every(...)` loop of CheckWhereClauseOperator, returning the
final value of `illegal`. The callback sets `illegal = !operatorRequired`
on a hit and returns `!operatorRequired` (stopping the loop when that is
false); on a miss it returns `operatorRequired` (stopping when that is
false). -/
def opLoop (st : List Char) (opReq : Bool) : List OpPat → Bool → Bool
  | [], illegal => illegal
  | p :: rest, illegal =>
      if opHit st p then
        if opReq then false
        else opLoop st opReq rest true
      else
        if opReq then opLoop st opReq rest illegal
        else illegal

/-- ASCII upper-casing, as JS `toUpperCase` acts on the characters the
validator concerns itself with. -/
def upChar (c : Char) : Char :=
  if 'a' ≤ c && c ≤ 'z' then Char.ofNat (c.toNat - 32) else c

/-- `CheckWhereClauseOperator(whereClause, operatorRequired)` from
dataAccess.js: `true` means the segment passes (the source returns),
`false` means it throws "condition operator is illegal". The source
upper-cases the segment before matching. -/
def CheckWhereClauseOperator (st : List Char) (opReq : Bool) : Bool :=
  !(opLoop (st.map upChar) opReq opsList opReq)

/-- JS whitespace as relevant here (`\s` on the source's inputs). -/
def isSpaceChar (c : Char) : Bool :=
  c == ' ' || c == '\t' || c == '\n' || c == '\r'

/-- `replace(/\s+/gm, ' ')`: collapse every whitespace run to one space. -/
def collapseWs : List Char → List Char
  | [] => []
  | [c] => [if isSpaceChar c then ' ' else c]
  | c :: c2 :: rest =>
      if isSpaceChar c && isSpaceChar c2 then collapseWs (c2 :: rest)
      else (if isSpaceChar c then ' ' else c) :: collapseWs (c2 :: rest)

/-- `trim()`: drop leading and trailing whitespace. -/
def trimChars (l : List Char) : List Char :=
  ((l.dropWhile isSpaceChar).reverse.dropWhile isSpaceChar).reverse

/-- `cleanWhereClause` from dataAccess.js: collapse whitespace, trim,
upper-case. -/
def cleanWhereClause (w : String) : List Char :=
  (trimChars (collapseWs w.toList)).map upChar

/-- The scanner behind `split(/\bAND\b|\bOR\b/gm)`: walk the cleaned
clause, cutting a segment wherever the word AND or the word OR matches with
boundaries on both sides, and otherwise accumulating characters. `prev` is
the previous character (boundary context), `acc` the current segment,
reversed. -/
def splitJoinersAux : Option Char → List Char → List Char → List (List Char)
  | _prev, [], acc => [acc.reverse]
  | prev, 'A' :: 'N' :: 'D' :: rest, acc =>
      if bBefore prev && bAfter rest then
        acc.reverse :: splitJoinersAux (some 'D') rest []
      else
        splitJoinersAux (some 'A') ('N' :: 'D' :: rest) ('A' :: acc)
  | prev, 'O' :: 'R' :: rest, acc =>
      if bBefore prev && bAfter rest then
        acc.reverse :: splitJoinersAux (some 'R') rest []
      else
        splitJoinersAux (some 'O') ('R' :: rest) ('O' :: acc)
  | _prev, c :: rest, acc => splitJoinersAux (some c) rest (c :: acc)

/-- Split a cleaned clause on word-bounded AND/OR. -/
def splitJoiners (l : List Char) : List (List Char) := splitJoinersAux none l []

/-- `statement.search(this.between) !== -1` with
`this.between = /\bBETWEEN\b/`. -/
def containsBetween (st : List Char) : Bool :=
  countWord ['B', 'E', 'T', 'W', 'E', 'E', 'N'] st != 0

/-- The `statements.forEach` state machine of CheckWhereClause: in state
`betweenSide = 0` a segment containing the word BETWEEN flips
`operatorRequired` off for itself and the following segment (the range side
of the BETWEEN, which must not contain an operator); the following segment
resets the state. `true` means every segment passed. -/
def checkStmts : List (List Char) → Bool → Bool → Bool
  | [], _, _ => true
  | st :: rest, opReq, false =>
      if containsBetween st then
        CheckWhereClauseOperator st false && checkStmts rest false true
      else
        CheckWhereClauseOperator st opReq && checkStmts rest opReq false
  | st :: rest, opReq, true =>
      CheckWhereClauseOperator st opReq && checkStmts rest true false

/-- `CheckWhereClause(whereClause)` from dataAccess.js on an already cleaned
character list. -/
def checkWhereChars (l : List Char) : Bool :=
  checkStmts (splitJoiners l) true false

/-- `CheckWhereClause(whereClause)` from dataAccess.js: `true` means the
clause passes, `false` means the validator throws. -/
def CheckWhereClause (w : String) : Bool :=
  checkWhereChars (cleanWhereClause w)

/-! ## GenerateUpdateSQL

The update builder of dataAccess.js (second revision). A JS object is an
insertion-ordered association list; `Object.keys` is the list of its keys
and `params[p]` looks a key up (undefined when absent). The
`CheckTableColumnExist` metadata lookup used by `autoSetTimeFields` is a
round trip to the catalog; it enters the embedding as the `columnExists`
environment function. -/

/-- `params[p]`: the value stored under a key, undefined when absent. -/
def jsGet (m : List (String × JVal)) (k : String) : JVal :=
  match m.find? (fun e => e.1 == k) with
  | some e => e.2
  | none => JVal.undef

/-- The arguments object of GenerateUpdateSQL. -/
structure UpdateArgs where
  params : List (String × JVal) := []
  tableName : String := ""
  whereClause : Option String := none
  pkName : String := "id"
  autoSetTimeFields : List String := []

/-- The statement object GenerateUpdateSQL produces. `aliasName` embeds the
source's `alias` field (`alias` is reserved in Lean). -/
structure SqlSpec where
  sql : String
  replacements : List JVal
  aliasName : String
deriving Repr, DecidableEq

/-- The synthesized primary-key WHERE clause:
`pkArr.forEach(p => where += ` AND "p" = '${params[p] || null}'`)`. -/
def pkWhere (params : List (String × JVal)) (pkArr : List String) : String :=
  pkArr.foldl
    (fun acc p =>
      acc ++ " AND \"" ++ p ++ "\" = '" ++ jsShow (jsOrNull (jsGet params p)) ++ "'")
    "WHERE 1 = 1"

/-- The SET list: `"key" = $<index+1>` over the filtered keys, comma
separated. -/
def setList (paramsArray : List String) : String :=
  String.intercalate ", "
    ((paramsArray.enum).map (fun e => "\"" ++ e.2 ++ "\" = $" ++ toString (e.1 + 1)))

/-- JS `String.prototype.split(',')` over characters: cut at every comma;
the empty string yields one empty segment. (Structural, so that proofs can
evaluate it; behaviourally identical to String.splitOn ",".) -/
def splitOnComma : List Char → List (List Char)
  | [] => [[]]
  | ',' :: rest => [] :: splitOnComma rest
  | c :: rest =>
      match splitOnComma rest with
      | [] => [[c]]
      | seg :: segs => (c :: seg) :: segs

/-- `String(pkName).split(',')` from GenerateUpdateSQL. -/
def updPkArr (args : UpdateArgs) : List String :=
  (splitOnComma args.pkName.toList).map (fun cs => String.mk cs)

/-- The filtered key list of GenerateUpdateSQL: keys naming a primary-key
component, or holding a defined (non-undefined) value, in insertion
order. -/
def updParamsArray (args : UpdateArgs) : List String :=
  (args.params.map Prod.fst).filter
    (fun p => (updPkArr args).contains p || jsGet args.params p ≠ JVal.undef)

/-- The SET string of GenerateUpdateSQL after the autoSetTimeFields pass:
each field present on the table (per the metadata lookup) appends a
CURRENT_TIMESTAMP assignment to the base SET list. -/
def updSetSql (columnExists : String → String → Bool)
    (args : UpdateArgs) : String :=
  args.autoSetTimeFields.foldl
    (fun acc f =>
      if columnExists args.tableName f then
        acc ++ ", \"" ++ f ++ "\" = CURRENT_TIMESTAMP"
      else acc)
    (setList (updParamsArray args))

/-- `GenerateUpdateSQL(args)` from dataAccess.js: `Except.error` where the
source throws (an invalid explicit whereClause), `Except.ok none` where it
returns null (no updatable field), and otherwise the statement object. The
keys kept are those naming a primary-key component or holding a defined
value; an explicit truthy whereClause is validated and ANDed onto the
`WHERE 1 = 1` base, otherwise the WHERE is synthesized from the primary-key
columns; each autoSetTimeFields column present on the table appends a
CURRENT_TIMESTAMP assignment. -/
def GenerateUpdateSQL (columnExists : String → String → Bool)
    (args : UpdateArgs) : Except String (Option SqlSpec) :=
  let pkArr := updPkArr args
  let paramsArray := updParamsArray args
  if paramsArray.isEmpty then Except.ok none
  else
    let finish : String → Except String (Option SqlSpec) := fun whereStr =>
      Except.ok (some
        { sql := "UPDATE " ++ args.tableName ++ " SET " ++
            updSetSql columnExists args ++ " " ++
            whereStr ++ " RETURNING *"
          replacements := paramsArray.map (jsGet args.params)
          aliasName := args.tableName })
    match args.whereClause with
    | some w =>
        if w ≠ "" then
          if CheckWhereClause w then finish ("WHERE 1 = 1" ++ " AND " ++ w)
          else Except.error "condition operator is illegal"
        else finish (pkWhere args.params pkArr)
    | none => finish (pkWhere args.params pkArr)

/-! ## Supporting lemmas about the transaction interpreter -/

/-- After `initialClient` a connection is always leased. -/
theorem initialClient_isSome (s : LeaseState) :
    ((initialClient s).2).inst.isSome := by
  cases h : s.inst <;> simp [initialClient, h]

/-- Statement execution never touches the committed database. -/
theorem runStmts_db (env : TxEnv) (rwa : Bool) :
    ∀ (ps : List Stmt) (acc : JVal) (s : TxState),
      ((runStmts env rwa ps acc s).2).db = s.db
  | [], _, _ => rfl
  | p :: rest, acc, s => by
      simp only [runStmts]
      split
      · rfl
      · split
        · rfl
        · exact runStmts_db env rwa rest _ _

/-- Statement execution never touches the lease. -/
theorem runStmts_lease (env : TxEnv) (rwa : Bool) :
    ∀ (ps : List Stmt) (acc : JVal) (s : TxState),
      ((runStmts env rwa ps acc s).2).lease = s.lease
  | [], _, _ => rfl
  | p :: rest, acc, s => by
      simp only [runStmts]
      split
      · rfl
      · split
        · rfl
        · exact runStmts_lease env rwa rest _ _

/-- Statement execution never changes the in-transaction flag. -/
theorem runStmts_inTxn (env : TxEnv) (rwa : Bool) :
    ∀ (ps : List Stmt) (acc : JVal) (s : TxState),
      ((runStmts env rwa ps acc s).2).inTxn = s.inTxn
  | [], _, _ => rfl
  | p :: rest, acc, s => by
      simp only [runStmts]
      split
      · rfl
      · split
        · rfl
        · exact runStmts_inTxn env rwa rest _ _

/-- Statement execution only appends the statements' own sql texts to the
query log. -/
theorem runStmts_log (env : TxEnv) (rwa : Bool) :
    ∀ (ps : List Stmt) (acc : JVal) (s : TxState),
      ∃ t, ((runStmts env rwa ps acc s).2).log = s.log ++ t ∧
        ∀ q ∈ t, ∃ p ∈ ps, q = p.sql
  | [], _, s => ⟨[], by simp [runStmts]⟩
  | p :: rest, acc, s => by
      simp only [runStmts]
      split
      · exact ⟨[], by simp⟩
      · split
        · exact ⟨[p.sql], by simp [issueQuery]⟩
        · obtain ⟨t, ht, hmem⟩ := runStmts_log env rwa rest
            (pushResult rwa p.alias? (env.stmtRows p.sql) acc)
            { issueQuery p.sql s with
                pending := (issueQuery p.sql s).pending ++ [p.sql] }
          refine ⟨p.sql :: t, ?_, ?_⟩
          · simpa [issueQuery] using ht
          · intro q hq
            rcases List.mem_cons.mp hq with h | h
            · exact ⟨p, List.mem_cons_self _ _, h⟩
            · obtain ⟨p', hp', hq'⟩ := hmem q h
              exact ⟨p', List.mem_cons_of_mem _ hp', hq'⟩

/-- The catch block: an error result, ROLLBACK appended to the log, the
uncommitted work discarded, the database untouched, the transaction
closed, the connection released without the error flag. -/
theorem rollbackPath_spec (env : TxEnv) (err : String) (s : TxState) :
    ((rollbackPath env err s).2).db = s.db ∧
    ((rollbackPath env err s).2).pending = [] ∧
    ((rollbackPath env err s).2).inTxn = false ∧
    ((rollbackPath env err s).2).log = s.log ++ ["ROLLBACK"] ∧
    ((rollbackPath env err s).2).lease = releaseClient false s.lease ∧
    ∃ e, (rollbackPath env err s).1 = Except.error e := by
  by_cases h : env.rollbackFails <;> simp [rollbackPath, issueQuery, h]

/-- A successful statement run executed every statement: the pending
effects and the log both grow by exactly the statements' sql texts, in
order, and nothing else changes. -/
theorem runStmts_ok_state (env : TxEnv) (rwa : Bool) :
    ∀ (ps : List Stmt) (acc : JVal) (s : TxState) (c : JVal) (s' : TxState),
      runStmts env rwa ps acc s = (Except.ok c, s') →
      s'.pending = s.pending ++ ps.map Stmt.sql ∧
      s'.log = s.log ++ ps.map Stmt.sql ∧
      s'.db = s.db ∧ s'.lease = s.lease ∧ s'.inTxn = s.inTxn
  | [], acc, s, c, s', h => by
      simp only [runStmts, Prod.mk.injEq] at h
      obtain ⟨-, rfl⟩ := h
      simp
  | p :: rest, acc, s, c, s', h => by
      simp only [runStmts] at h
      split at h
      · simp at h
      · split at h
        · simp at h
        · obtain ⟨h1, h2, h3, h4, h5⟩ := runStmts_ok_state env rwa rest _ _ _ _ h
          refine ⟨?_, ?_, ?_, ?_, ?_⟩ <;>
            simp [h1, h2, h3, h4, h5, issueQuery]

/-- Master characterization of a Transaction call with statements: the run
either rolls back (an error is re-raised, the database is untouched, the
log ends in ROLLBACK) or commits (COMMIT succeeded, the pending effects are
appended to the database, the log ends in COMMIT); either way the lease is
released, no transaction stays open and no pending work survives, and the
only other queries logged are the statements' own sql texts after BEGIN. -/
theorem Transaction_master (env : TxEnv) (args : TxArgs)
    (hook? : Option (JVal → Except String JVal)) (s : TxState)
    (hne : args.params ≠ []) (res : Except String JVal) (st' : TxState)
    (heq : Transaction env args hook? s = (res, st')) :
    ((∃ e, res = Except.error e) ∧
     st'.db = s.db ∧ st'.pending = [] ∧ st'.inTxn = false ∧
     st'.lease = releaseClient false (initialClient s.lease).2 ∧
     "BEGIN" ∈ st'.log ∧ "ROLLBACK" ∈ st'.log) ∨
    ((∃ v, res = Except.ok v) ∧ env.commitFails = false ∧
     st'.db = s.db ++ (s.pending ++ args.params.map Stmt.sql) ∧
     st'.pending = [] ∧ st'.inTxn = false ∧
     st'.lease = releaseClient false (initialClient s.lease).2 ∧
     st'.log = (s.log ++ "BEGIN" :: args.params.map Stmt.sql) ++ ["COMMIT"]) := by
  have h0 : args.params.isEmpty = false := by
    cases hp : args.params
    · exact absurd hp hne
    · rfl
  simp only [Transaction, h0, Bool.false_eq_true, if_false] at heq
  split at heq
  · -- BEGIN itself fails: straight to the catch block
    refine Or.inl ?_
    obtain ⟨hdb, hpend, htxn, hlog, hlease, e, he⟩ :=
      rollbackPath_spec env "begin failed"
        (issueQuery "BEGIN" { s with lease := (initialClient s.lease).2 })
    rw [heq] at hdb hpend htxn hlog hlease he
    refine ⟨⟨e, he⟩, by simpa [issueQuery] using hdb, hpend, htxn,
      by simpa [issueQuery] using hlease, ?_, ?_⟩ <;>
      rw [hlog] <;> simp [issueQuery]
  · split at heq
    next e s3 hr =>
      -- a statement (or the alias check) failed: catch block
      obtain ⟨t, ht, hmem⟩ := runStmts_log env args.returnWithAlias
        args.params
        (if args.returnWithAlias then JVal.obj [] else JVal.arr [])
        { issueQuery "BEGIN" { s with lease := (initialClient s.lease).2 }
            with inTxn := true }
      rw [hr] at ht
      have hdb3 : s3.db = s.db := by
        have h := runStmts_db env args.returnWithAlias args.params
          (if args.returnWithAlias then JVal.obj [] else JVal.arr [])
          { issueQuery "BEGIN" { s with lease := (initialClient s.lease).2 }
              with inTxn := true }
        rw [hr] at h
        simpa [issueQuery] using h
      have hlease3 : s3.lease = (initialClient s.lease).2 := by
        have h := runStmts_lease env args.returnWithAlias args.params
          (if args.returnWithAlias then JVal.obj [] else JVal.arr [])
          { issueQuery "BEGIN" { s with lease := (initialClient s.lease).2 }
              with inTxn := true }
        rw [hr] at h
        simpa [issueQuery] using h
      refine Or.inl ?_
      obtain ⟨hdb, hpend, htxn, hlog, hlease, e', he'⟩ :=
        rollbackPath_spec env e s3
      rw [heq] at hdb hpend htxn hlog hlease he'
      simp only [issueQuery] at ht
      refine ⟨⟨e', he'⟩, by rw [hdb, hdb3], hpend, htxn,
        by rw [hlease, hlease3], ?_, ?_⟩ <;>
        rw [hlog, ht] <;> simp
    next collected s3 hr =>
      -- every statement ran; then the hook and COMMIT decide the outcome
      obtain ⟨hpend3, hlog3, hdb3, hlease3, htxn3⟩ :=
        runStmts_ok_state env args.returnWithAlias args.params _ _ _ _ hr
      simp only [issueQuery] at hpend3 hlog3 hdb3 hlease3 htxn3
      split at heq
      next e hhook =>
        -- the hook raised: catch block
        refine Or.inl ?_
        obtain ⟨hdb, hpend, htxn, hlog, hlease, e', he'⟩ :=
          rollbackPath_spec env e s3
        rw [heq] at hdb hpend htxn hlog hlease he'
        refine ⟨⟨e', he'⟩, by rw [hdb, hdb3], hpend, htxn,
          by rw [hlease, hlease3], ?_, ?_⟩ <;>
          rw [hlog, hlog3] <;> simp
      next w hhook =>
        split at heq
        · -- COMMIT fails: catch block
          refine Or.inl ?_
          obtain ⟨hdb, hpend, htxn, hlog, hlease, e', he'⟩ :=
            rollbackPath_spec env "commit failed" (issueQuery "COMMIT" s3)
          rw [heq] at hdb hpend htxn hlog hlease he'
          refine ⟨⟨e', he'⟩, ?_, hpend, htxn, ?_, ?_, ?_⟩
          · rw [hdb]; simp [issueQuery, hdb3]
          · rw [hlease]; simp [issueQuery, hlease3]
          · rw [hlog]; simp [issueQuery, hlog3]
          · rw [hlog]; simp [issueQuery, hlog3]
        · -- success: COMMIT issued, pending applied, lease released
          next hc =>
          rw [Prod.mk.injEq] at heq
          obtain ⟨hres, hst⟩ := heq
          refine Or.inr ?_
          refine ⟨⟨_, hres.symm⟩, by simpa using hc, ?_, ?_, ?_, ?_, ?_⟩ <;>
            rw [← hst] <;> simp [issueQuery, hdb3, hpend3, hlease3, hlog3]

/-- A successful TransactionPreserve call with statements leaves the
transaction open: the in-transaction flag still set, the lease still held,
the statements' effects still pending (uncommitted), and the log holding
only BEGIN and the statements — no COMMIT was issued and no release
happened. -/
theorem TransactionPreserve_ok (env : TxEnv) (args : TxArgs)
    (hook? : Option (JVal → Except String JVal)) (s : TxState)
    (v : JVal) (st' : TxState) (hne : args.params ≠ [])
    (heq : TransactionPreserve env args hook? s = (Except.ok v, st')) :
    st'.inTxn = true ∧ st'.lease = (initialClient s.lease).2 ∧
    st'.pending = s.pending ++ args.params.map Stmt.sql ∧
    st'.log = (s.log ++ ["BEGIN"]) ++ args.params.map Stmt.sql := by
  have h0 : args.params.isEmpty = false := by
    cases hp : args.params
    · exact absurd hp hne
    · rfl
  simp only [TransactionPreserve, h0, Bool.false_eq_true, if_false] at heq
  split at heq
  · obtain ⟨-, -, -, -, -, e, he⟩ :=
      rollbackPath_spec env "begin failed"
        (issueQuery "BEGIN" { s with lease := (initialClient s.lease).2 })
    rw [heq] at he
    simp at he
  · split at heq
    next e s3 hr =>
      obtain ⟨-, -, -, -, -, e', he'⟩ := rollbackPath_spec env e s3
      rw [heq] at he'
      simp at he'
    next collected s3 hr =>
      obtain ⟨hpend3, hlog3, hdb3, hlease3, htxn3⟩ :=
        runStmts_ok_state env args.returnWithAlias args.params _ _ _ _ hr
      simp only [issueQuery] at hpend3 hlog3 hdb3 hlease3 htxn3
      split at heq
      next e hhook =>
        obtain ⟨-, -, -, -, -, e', he'⟩ := rollbackPath_spec env e s3
        rw [heq] at he'
        simp at he'
      next w hhook =>
        rw [Prod.mk.injEq] at heq
        obtain ⟨-, hst⟩ := heq
        rw [← hst]
        exact ⟨htxn3, hlease3, hpend3, by simpa using hlog3⟩

/-! ## Shared concrete fixtures for witnesses and counterexamples -/

/-- A pool with no leased connection and pristine counters. -/
def leaseFresh : LeaseState :=
  { inst := none, count := 0, checkedOut := 0, returned := 0, destroyed := 0,
    nextId := 1 }

/-- A fresh observation state: empty database, nothing pending, no open
transaction, empty query log. -/
def stateFresh : TxState :=
  { db := [], pending := [], inTxn := false, lease := leaseFresh, log := [] }

/-- A driver in which every query succeeds and every statement returns the
single row 1. -/
def envOK : TxEnv :=
  { stmtFails := fun _ => false, stmtRows := fun _ => [JVal.num 1] }

/-- A driver in which COMMIT fails and everything else succeeds. -/
def envCommitFail : TxEnv := { envOK with commitFails := true }

/-- A driver in which the statement "S2" fails, ROLLBACK also fails, and
everything else succeeds. -/
def envRollbackFail : TxEnv :=
  { envOK with stmtFails := fun q => q == "S2", rollbackFails := true }

/-! ## Claim theorems -/

/-- C1: For every Transaction call with a non-empty statement list, if any
statement execution, the pre-commit hook, or COMMIT itself fails after
BEGIN has been issued, the executor issues ROLLBACK and re-raises the
error, and no statement in the set has any visible effect on the database
afterward: the database state after the failed call equals its state
before the call. (First conjunct: every failing call has issued ROLLBACK,
left the database untouched and no pending effect behind. Second conjunct:
a failing COMMIT indeed makes the call fail.) -/
theorem C1_transaction_atomicity (env : TxEnv) (args : TxArgs)
    (hook? : Option (JVal → Except String JVal)) (s : TxState)
    (hne : args.params ≠ []) :
    (∀ e, (Transaction env args hook? s).1 = Except.error e →
        "ROLLBACK" ∈ ((Transaction env args hook? s).2).log ∧
        ((Transaction env args hook? s).2).db = s.db ∧
        ((Transaction env args hook? s).2).pending = []) ∧
    (env.commitFails = true →
        ∃ e, (Transaction env args hook? s).1 = Except.error e) := by
  have hmaster := Transaction_master env args hook? s hne
    (Transaction env args hook? s).1 (Transaction env args hook? s).2 rfl
  constructor
  · intro e he
    rcases hmaster with ⟨-, hdb, hpend, -, -, -, hrb⟩ | ⟨⟨v, hv⟩, -⟩
    · exact ⟨hrb, hdb, hpend⟩
    · rw [he] at hv
      simp at hv
  · intro hc
    rcases hmaster with ⟨⟨e, he⟩, -⟩ | ⟨-, hcf, -⟩
    · exact ⟨e, he⟩
    · rw [hc] at hcf
      simp at hcf

/-- Witness for C1 at a concrete input: one statement, a driver whose
COMMIT fails. -/
theorem C1_transaction_atomicity_witness :
    (({ params := [{ sql := "S1" }] } : TxArgs).params ≠ []) ∧
    ((∀ e,
        (Transaction envCommitFail { params := [{ sql := "S1" }] } none
            stateFresh).1 = Except.error e →
        "ROLLBACK" ∈
          ((Transaction envCommitFail { params := [{ sql := "S1" }] } none
              stateFresh).2).log ∧
        ((Transaction envCommitFail { params := [{ sql := "S1" }] } none
            stateFresh).2).db = stateFresh.db ∧
        ((Transaction envCommitFail { params := [{ sql := "S1" }] } none
            stateFresh).2).pending = []) ∧
     (envCommitFail.commitFails = true →
        ∃ e,
          (Transaction envCommitFail { params := [{ sql := "S1" }] } none
              stateFresh).1 = Except.error e)) :=
  ⟨by decide,
   C1_transaction_atomicity envCommitFail { params := [{ sql := "S1" }] }
     none stateFresh (by decide)⟩

/-- C3: when the preserveClient option is set (modelled from the spec as
`TransactionPreserve`; the implementing revision is not in src/), the
executor deliberately skips issuing COMMIT, leaving the leased connection
open with the work still pending so the caller can issue further statements
and commit later; and every call without preserveClient is always fully
committed or rolled back before it returns: no transaction stays open, no
pending work survives, and the log ends with COMMIT or with ROLLBACK. -/
theorem C3_preserveClient (env : TxEnv) (args : TxArgs)
    (hook? : Option (JVal → Except String JVal)) (s : TxState)
    (hne : args.params ≠ []) (hlogC : "COMMIT" ∉ s.log)
    (hsql : ∀ p ∈ args.params, p.sql ≠ "COMMIT") :
    (((Transaction env args hook? s).2).inTxn = false ∧
     ((Transaction env args hook? s).2).pending = [] ∧
     ("COMMIT" ∈ ((Transaction env args hook? s).2).log ∨
      "ROLLBACK" ∈ ((Transaction env args hook? s).2).log)) ∧
    (∀ v, (TransactionPreserve env args hook? s).1 = Except.ok v →
      "COMMIT" ∉ ((TransactionPreserve env args hook? s).2).log ∧
      ((TransactionPreserve env args hook? s).2).inTxn = true ∧
      ((TransactionPreserve env args hook? s).2).lease.inst.isSome ∧
      ((TransactionPreserve env args hook? s).2).pending =
        s.pending ++ args.params.map Stmt.sql) := by
  constructor
  · have hmaster := Transaction_master env args hook? s hne
      (Transaction env args hook? s).1 (Transaction env args hook? s).2 rfl
    rcases hmaster with ⟨-, -, hpend, htxn, -, -, hrb⟩ |
      ⟨-, -, -, hpend, htxn, -, hlog⟩
    · exact ⟨htxn, hpend, Or.inr hrb⟩
    · refine ⟨htxn, hpend, Or.inl ?_⟩
      rw [hlog]
      simp
  · intro v hv
    have heq : TransactionPreserve env args hook? s =
        (Except.ok v, (TransactionPreserve env args hook? s).2) := by
      rw [← hv]
    obtain ⟨htxn, hlease, hpend, hlog⟩ :=
      TransactionPreserve_ok env args hook? s v _ hne heq
    refine ⟨?_, htxn, ?_, hpend⟩
    · rw [hlog]
      intro hmem
      rcases List.mem_append.mp hmem with h | h
      · rcases List.mem_append.mp h with h' | h'
        · exact hlogC h'
        · simp at h'
      · obtain ⟨p, hp, hps⟩ := List.mem_map.mp h
        exact hsql p hp hps
    · rw [hlease]
      exact initialClient_isSome s.lease

/-- Witness for C3 at a concrete input: one statement, an all-success
driver, fresh state. -/
theorem C3_preserveClient_witness :
    (({ params := [{ sql := "S1" }] } : TxArgs).params ≠ []) ∧
    ("COMMIT" ∉ stateFresh.log) ∧
    (∀ p ∈ ({ params := [{ sql := "S1" }] } : TxArgs).params,
        p.sql ≠ "COMMIT") ∧
    ((((Transaction envOK { params := [{ sql := "S1" }] } none
          stateFresh).2).inTxn = false ∧
      ((Transaction envOK { params := [{ sql := "S1" }] } none
          stateFresh).2).pending = [] ∧
      ("COMMIT" ∈ ((Transaction envOK { params := [{ sql := "S1" }] } none
          stateFresh).2).log ∨
       "ROLLBACK" ∈ ((Transaction envOK { params := [{ sql := "S1" }] } none
          stateFresh).2).log)) ∧
     (∀ v, (TransactionPreserve envOK { params := [{ sql := "S1" }] } none
          stateFresh).1 = Except.ok v →
        "COMMIT" ∉ ((TransactionPreserve envOK
            { params := [{ sql := "S1" }] } none stateFresh).2).log ∧
        ((TransactionPreserve envOK { params := [{ sql := "S1" }] } none
            stateFresh).2).inTxn = true ∧
        ((TransactionPreserve envOK { params := [{ sql := "S1" }] } none
            stateFresh).2).lease.inst.isSome ∧
        ((TransactionPreserve envOK { params := [{ sql := "S1" }] } none
            stateFresh).2).pending =
          stateFresh.pending ++
            (({ params := [{ sql := "S1" }] } : TxArgs).params).map
              Stmt.sql)) :=
  ⟨by decide, by decide, by decide,
   C3_preserveClient envOK { params := [{ sql := "S1" }] } none stateFresh
     (by decide) (by decide) (by decide)⟩

/-- A post-execution hook returning a fresh value (42), for exercising what
Transaction does with a hook's return value. -/
def hook42 : JVal → Except String JVal := fun _ => Except.ok (JVal.num 42)

/-- C2 counterexample: the claim says the hook's return value becomes what
the Transaction call returns. At a concrete input the hook returns 42, yet
the call returns the original shaped result [1] — the source awaits
`transaction(finalRes)` without using its value. -/
theorem C2_counterexample :
    (Transaction envOK { params := [{ sql := "S1" }] } (some hook42)
        stateFresh).1 = Except.ok (JVal.arr [JVal.num 1]) ∧
    hook42 (JVal.arr [JVal.num 1]) = Except.ok (JVal.num 42) ∧
    (Transaction envOK { params := [{ sql := "S1" }] } (some hook42)
        stateFresh).1 ≠ Except.ok (JVal.num 42) := by
  refine ⟨rfl, rfl, ?_⟩
  intro hcontra
  rw [show (Transaction envOK { params := [{ sql := "S1" }] } (some hook42)
      stateFresh).1 = Except.ok (JVal.arr [JVal.num 1]) from rfl] at hcontra
  simp at hcontra

/-- C2 amended: the hook is invoked with the shaped result before COMMIT,
and an error raised inside the hook aborts the transaction (no COMMIT is
ever issued; the log ends in ROLLBACK); but the hook's return value is
discarded — when the hook returns a value the Transaction call still
returns the original shaped result, not the hook's value. (The hook
receives exactly the value `v` that the same call without a hook would
return, i.e. the shaped result.) -/
theorem C2_hook_before_commit (env : TxEnv) (args : TxArgs)
    (h : JVal → Except String JVal) (s : TxState) (v : JVal) (st' : TxState)
    (hne : args.params ≠ [])
    (hv : Transaction env args none s = (Except.ok v, st')) :
    (∀ w, h v = Except.ok w →
        (Transaction env args (some h) s).1 = Except.ok v) ∧
    (∀ e, h v = Except.error e →
        (env.rollbackFails = false →
          (Transaction env args (some h) s).1 = Except.error e) ∧
        ((Transaction env args (some h) s).2).log =
          (s.log ++ "BEGIN" :: args.params.map Stmt.sql) ++ ["ROLLBACK"]) := by
  have h0 : args.params.isEmpty = false := by
    cases hp : args.params
    · exact absurd hp hne
    · rfl
  simp only [Transaction, h0, Bool.false_eq_true, if_false] at hv ⊢
  split at hv
  · obtain ⟨-, -, -, -, -, e, he⟩ :=
      rollbackPath_spec env "begin failed"
        (issueQuery "BEGIN" { s with lease := (initialClient s.lease).2 })
    rw [hv] at he
    simp at he
  · next hb =>
    split at hv
    next e s3 hr =>
      obtain ⟨-, -, -, -, -, e', he'⟩ := rollbackPath_spec env e s3
      rw [hv] at he'
      simp at he'
    next collected s3 hr =>
      obtain ⟨hpend3, hlog3, hdb3, hlease3, htxn3⟩ :=
        runStmts_ok_state env args.returnWithAlias args.params _ _ _ _ hr
      simp only [issueQuery] at hpend3 hlog3 hdb3 hlease3 htxn3
      split at hv
      · next hc =>
        obtain ⟨-, -, -, -, -, e', he'⟩ :=
          rollbackPath_spec env "commit failed" (issueQuery "COMMIT" s3)
        rw [hv] at he'
        simp at he'
      · next hc =>
        rw [Prod.mk.injEq] at hv
        obtain ⟨hres, -⟩ := hv
        rw [Except.ok.injEq] at hres
        rw [if_neg hb]
        split
        next e2 heq2 =>
          rw [hres] at heq2
          constructor
          · intro w hw
            rw [hw] at heq2
            simp at heq2
          · intro e hee
            have he2 : e = e2 := by
              have hh := hee.symm.trans heq2
              rw [Except.error.injEq] at hh
              exact hh
            subst he2
            constructor
            · intro hrbf
              simp [rollbackPath, hrbf]
            · obtain ⟨-, -, -, hlog, -, -⟩ := rollbackPath_spec env e s3
              rw [hlog, hlog3]
              simp
        next w2 heq2 =>
          rw [hres] at heq2
          constructor
          · intro w hw
            rw [if_neg hc]
            rw [hres]
          · intro e hee
            rw [hee] at heq2
            simp at heq2

/-- Witness for C2's amended theorem at a concrete input: one statement,
all-success driver, the hook `hook42`. -/
theorem C2_hook_before_commit_witness :
    (({ params := [{ sql := "S1" }] } : TxArgs).params ≠ []) ∧
    (Transaction envOK { params := [{ sql := "S1" }] } none stateFresh =
      (Except.ok (JVal.arr [JVal.num 1]),
       { db := ["S1"], pending := [], inTxn := false,
         lease := { inst := none, count := 0, checkedOut := 0,
                    returned := 1, destroyed := 0, nextId := 2 },
         log := ["BEGIN", "S1", "COMMIT"] })) ∧
    ((∀ w, hook42 (JVal.arr [JVal.num 1]) = Except.ok w →
        (Transaction envOK { params := [{ sql := "S1" }] } (some hook42)
            stateFresh).1 = Except.ok (JVal.arr [JVal.num 1])) ∧
     (∀ e, hook42 (JVal.arr [JVal.num 1]) = Except.error e →
        (envOK.rollbackFails = false →
          (Transaction envOK { params := [{ sql := "S1" }] } (some hook42)
              stateFresh).1 = Except.error e) ∧
        ((Transaction envOK { params := [{ sql := "S1" }] } (some hook42)
            stateFresh).2).log =
          (stateFresh.log ++ "BEGIN" ::
            (({ params := [{ sql := "S1" }] } : TxArgs).params).map Stmt.sql) ++
            ["ROLLBACK"])) :=
  ⟨by decide, rfl,
   C2_hook_before_commit envOK { params := [{ sql := "S1" }] } hook42
     stateFresh (JVal.arr [JVal.num 1]) _ (by decide) rfl⟩

/-- When `returnWithAlias` is set, all statements succeed and some
statement's alias is falsy, the statement runner raises the missing-alias
error. -/
theorem runStmts_missingAlias (env : TxEnv)
    (hf : ∀ q, env.stmtFails q = false) (rwa : Bool) (hrwa : rwa = true) :
    ∀ (ps : List Stmt) (acc : JVal) (s : TxState),
      (∃ p ∈ ps, aliasFalsy p.alias? = true) →
      (runStmts env rwa ps acc s).1 = Except.error missingAliasMsg
  | [], _, _, h => by simp at h
  | p :: rest, acc, s, h => by
      subst hrwa
      simp only [runStmts, Bool.true_and]
      by_cases ha : aliasFalsy p.alias?
      · simp [ha]
      · have hrest : ∃ p' ∈ rest, aliasFalsy p'.alias? = true := by
          rcases h with ⟨p', hp', hfal⟩
          rcases List.mem_cons.mp hp' with heqp | hmem
          · rw [heqp] at hfal
            exact absurd hfal (by simpa using ha)
          · exact ⟨p', hmem, hfal⟩
        simp only [ha, Bool.false_eq_true, if_false, hf p.sql]
        exact runStmts_missingAlias env hf true rfl rest _ _ hrest

/-- C4 counterexample: the claim says the missing-alias failure happens
before any query — including BEGIN — is issued. At a concrete input
(returnWithAlias set, one statement without an alias) the call does fail
with the missing-alias error, but the connection's query log shows that
BEGIN was issued first and a ROLLBACK followed. -/
theorem C4_counterexample :
    (Transaction envOK
        { params := [{ sql := "S1" }], returnWithAlias := true } none
        stateFresh).1 = Except.error missingAliasMsg ∧
    ((Transaction envOK
        { params := [{ sql := "S1" }], returnWithAlias := true } none
        stateFresh).2).log = ["BEGIN", "ROLLBACK"] :=
  ⟨rfl, rfl⟩

/-- C4 amended: with `returnWithAlias` set and some statement lacking an
alias (while the statements themselves would succeed), the call fails with
the missing-alias error — but the error is raised after BEGIN has been
issued, inside the statement loop, and the transaction is rolled back;
COMMIT is never issued. -/
theorem C4_missing_alias (env : TxEnv) (args : TxArgs)
    (hook? : Option (JVal → Except String JVal)) (s : TxState)
    (hrwa : args.returnWithAlias = true)
    (hbad : ∃ p ∈ args.params, aliasFalsy p.alias? = true)
    (hf : ∀ q, env.stmtFails q = false)
    (hb : env.beginFails = false)
    (hrbf : env.rollbackFails = false)
    (hlogC : "COMMIT" ∉ s.log)
    (hsql : ∀ p ∈ args.params, p.sql ≠ "COMMIT") :
    (Transaction env args hook? s).1 = Except.error missingAliasMsg ∧
    "BEGIN" ∈ ((Transaction env args hook? s).2).log ∧
    "ROLLBACK" ∈ ((Transaction env args hook? s).2).log ∧
    "COMMIT" ∉ ((Transaction env args hook? s).2).log := by
  have hne : args.params ≠ [] := by
    rcases hbad with ⟨p, hp, -⟩
    intro hnil
    rw [hnil] at hp
    simp at hp
  have h0 : args.params.isEmpty = false := by
    cases hp : args.params
    · exact absurd hp hne
    · rfl
  cases heq : Transaction env args hook? s with
  | mk res st' =>
  dsimp only
  simp only [Transaction, h0, Bool.false_eq_true, if_false, hb] at heq
  split at heq
  next e s3 hr =>
    have hfst := congrArg Prod.fst hr
    rw [runStmts_missingAlias env hf args.returnWithAlias hrwa
      args.params _ _ hbad] at hfst
    have he : e = missingAliasMsg := by simpa using hfst.symm
    subst he
    obtain ⟨t, ht, hmem⟩ := runStmts_log env args.returnWithAlias args.params
      (if args.returnWithAlias then JVal.obj [] else JVal.arr [])
      { issueQuery "BEGIN" { s with lease := (initialClient s.lease).2 }
          with inTxn := true }
    rw [hr] at ht
    simp only [issueQuery] at ht
    obtain ⟨-, -, -, hlog, -, -⟩ := rollbackPath_spec env missingAliasMsg s3
    rw [heq] at hlog
    have hres1 : (rollbackPath env missingAliasMsg s3).1 =
        Except.error missingAliasMsg := by
      simp [rollbackPath, hrbf]
    rw [heq] at hres1
    refine ⟨hres1, ?_, ?_, ?_⟩
    · rw [hlog, ht]
      simp
    · rw [hlog]
      simp
    · rw [hlog, ht]
      intro hmm
      rcases List.mem_append.mp hmm with hmm1 | hmm2
      · rcases List.mem_append.mp hmm1 with hmm3 | hmm4
        · rcases List.mem_append.mp hmm3 with hmm5 | hmm6
          · exact hlogC hmm5
          · simp at hmm6
        · obtain ⟨p, hp, hps⟩ := hmem _ hmm4
          exact hsql p hp hps.symm
      · simp at hmm2
  next collected s3 hr =>
    have hfst := congrArg Prod.fst hr
    rw [runStmts_missingAlias env hf args.returnWithAlias hrwa
      args.params _ _ hbad] at hfst
    simp at hfst

/-- Witness for C4's amended theorem at a concrete input: returnWithAlias
set, one alias-less statement, all-success driver. -/
theorem C4_missing_alias_witness :
    (({ params := [{ sql := "S1" }], returnWithAlias := true } :
        TxArgs).returnWithAlias = true) ∧
    (∃ p ∈ ({ params := [{ sql := "S1" }], returnWithAlias := true } :
        TxArgs).params, aliasFalsy p.alias? = true) ∧
    (∀ q, envOK.stmtFails q = false) ∧
    ((Transaction envOK
        { params := [{ sql := "S1" }], returnWithAlias := true } none
        stateFresh).1 = Except.error missingAliasMsg ∧
     "BEGIN" ∈ ((Transaction envOK
        { params := [{ sql := "S1" }], returnWithAlias := true } none
        stateFresh).2).log ∧
     "ROLLBACK" ∈ ((Transaction envOK
        { params := [{ sql := "S1" }], returnWithAlias := true } none
        stateFresh).2).log ∧
     "COMMIT" ∉ ((Transaction envOK
        { params := [{ sql := "S1" }], returnWithAlias := true } none
        stateFresh).2).log) :=
  ⟨rfl, by decide, fun _ => rfl,
   C4_missing_alias envOK
     { params := [{ sql := "S1" }], returnWithAlias := true } none stateFresh
     rfl (by decide) (fun _ => rfl) rfl rfl (by decide) (by decide)⟩

/-- A driver in which only the statement "S2" fails (ROLLBACK succeeds). -/
def envStmtFail : TxEnv := { envOK with stmtFails := fun q => q == "S2" }

/-- A driver in which every statement returns zero rows. -/
def envNoRows : TxEnv := { envOK with stmtRows := fun _ => [] }

/-- C5: evaluation of the code at the failing input. When ROLLBACK itself
fails after a statement error, the source's catch-of-the-catch calls
`releaseClient()` without the error (despite its own "Rollback failed so
discard connection" comment), so the connection is returned to the pool
(returned = 1) and not discarded (destroyed = 0); the rollback error is
re-raised. The claim's other half does hold: when ROLLBACK succeeds the
connection is released normally and the original error is re-raised. -/
theorem C5_rollback_failure_release :
    ((Transaction envRollbackFail
        { params := [{ sql := "S1" }, { sql := "S2" }] } none
        stateFresh).1 = Except.error "rollback failed") ∧
    (((Transaction envRollbackFail
        { params := [{ sql := "S1" }, { sql := "S2" }] } none
        stateFresh).2).lease.destroyed = 0) ∧
    (((Transaction envRollbackFail
        { params := [{ sql := "S1" }, { sql := "S2" }] } none
        stateFresh).2).lease.returned = 1) ∧
    ((Transaction envStmtFail
        { params := [{ sql := "S1" }, { sql := "S2" }] } none
        stateFresh).1 = Except.error ("query failed: " ++ "S2")) ∧
    (((Transaction envStmtFail
        { params := [{ sql := "S1" }, { sql := "S2" }] } none
        stateFresh).2).lease.returned = 1) :=
  ⟨rfl, rfl, rfl, rfl, rfl⟩

/-- Pushing a row-set keeps an array accumulator an array. -/
theorem pushResult_arr (rwa : Bool) (alias? : Option String)
    (rows : List JVal) (xs : List JVal) :
    ∃ ys, pushResult rwa alias? rows (JVal.arr xs) = JVal.arr ys := by
  by_cases h : rwa <;> simp [pushResult, h]

/-- Pushing a row-set keeps an object accumulator an object. -/
theorem pushResult_obj (rwa : Bool) (alias? : Option String)
    (rows : List JVal) (m : List (String × JVal)) :
    ∃ m', pushResult rwa alias? rows (JVal.obj m) = JVal.obj m' := by
  by_cases h : rwa <;> simp [pushResult, h]

/-- A successful statement run keeps the top-level container shape of its
accumulator: arrays stay arrays, objects stay objects. -/
theorem runStmts_ok_shape (env : TxEnv) (rwa : Bool) :
    ∀ (ps : List Stmt) (acc : JVal) (s : TxState) (c : JVal) (s' : TxState),
      runStmts env rwa ps acc s = (Except.ok c, s') →
      ((∃ xs, acc = JVal.arr xs) → ∃ ys, c = JVal.arr ys) ∧
      ((∃ m, acc = JVal.obj m) → ∃ m', c = JVal.obj m')
  | [], acc, s, c, s', h => by
      simp only [runStmts, Prod.mk.injEq] at h
      obtain ⟨hc, -⟩ := h
      rw [Except.ok.injEq] at hc
      subst hc
      exact ⟨fun hx => hx, fun hm => hm⟩
  | p :: rest, acc, s, c, s', h => by
      simp only [runStmts] at h
      split at h
      · simp at h
      · split at h
        · simp at h
        · have ih := runStmts_ok_shape env rwa rest
            (pushResult rwa p.alias? (env.stmtRows p.sql) acc) _ _ _ h
          constructor
          · rintro ⟨xs, rfl⟩
            obtain ⟨ys, hys⟩ := pushResult_arr rwa p.alias?
              (env.stmtRows p.sql) xs
            exact ih.1 ⟨ys, hys⟩
          · rintro ⟨m, rfl⟩
            obtain ⟨m', hm'⟩ := pushResult_obj rwa p.alias?
              (env.stmtRows p.sql) m
            exact ih.2 ⟨m', hm'⟩

/-- C7 counterexample: the claim says an empty statement list yields an
empty alias-keyed map when returnWithAlias is set, and that a completed
call never returns null/undefined even when statements return zero rows.
At concrete inputs the empty-list call returns the empty array (not an
empty map), and a returnSingleRecord call over a zero-row statement
returns undefined. -/
theorem C7_counterexample :
    (Transaction envOK { params := [], returnWithAlias := true } none
        stateFresh).1 = Except.ok (JVal.arr []) ∧
    (JVal.arr [] ≠ JVal.obj []) ∧
    (Transaction envNoRows
        { params := [{ sql := "S1" }], returnSingleRecord := true } none
        stateFresh).1 = Except.ok JVal.undef :=
  ⟨rfl, by decide, rfl⟩

/-- C7 amended: a hookless Transaction call with returnSingleRecord unset
that completes without raising returns an array or an object — never
null/undefined; and an empty statement list returns the empty array `[]`
(whatever the other options say — in particular not an empty map under
returnWithAlias) without touching the connection or issuing BEGIN. With
returnSingleRecord set, an empty (flattened) row list yields undefined. -/
theorem C7_result_shape (env : TxEnv) (args : TxArgs)
    (hook? : Option (JVal → Except String JVal)) (s : TxState)
    (hrsr : args.returnSingleRecord = false) (hh : hook? = none) :
    (args.params = [] →
        Transaction env args hook? s = (Except.ok (JVal.arr []), s)) ∧
    (∀ v, (Transaction env args hook? s).1 = Except.ok v →
        (∃ xs, v = JVal.arr xs) ∨ (∃ m, v = JVal.obj m)) := by
  subst hh
  constructor
  · intro hemp
    have h0 : args.params.isEmpty = true := by rw [hemp]; rfl
    simp [Transaction, h0]
  · intro v hv
    by_cases hemp : args.params = []
    · have h0 : args.params.isEmpty = true := by rw [hemp]; rfl
      simp only [Transaction, h0, if_true] at hv
      rw [Except.ok.injEq] at hv
      exact Or.inl ⟨[], hv.symm⟩
    · have h0 : args.params.isEmpty = false := by
        cases hp : args.params
        · exact absurd hp hemp
        · rfl
      cases heq : Transaction env args none s with
      | mk res st' =>
      rw [heq] at hv
      dsimp only at hv
      subst hv
      simp only [Transaction, h0, Bool.false_eq_true, if_false] at heq
      split at heq
      · obtain ⟨-, -, -, -, -, e, he⟩ :=
          rollbackPath_spec env "begin failed"
            (issueQuery "BEGIN" { s with lease := (initialClient s.lease).2 })
        rw [heq] at he
        simp at he
      · split at heq
        next e s3 hr =>
          obtain ⟨-, -, -, -, -, e', he'⟩ := rollbackPath_spec env e s3
          rw [heq] at he'
          simp at he'
        next collected s3 hr =>
          split at heq
          · next hc =>
            obtain ⟨-, -, -, -, -, e', he'⟩ :=
              rollbackPath_spec env "commit failed" (issueQuery "COMMIT" s3)
            rw [heq] at he'
            simp at he'
          · next hc =>
            rw [Prod.mk.injEq] at heq
            obtain ⟨hres, -⟩ := heq
            rw [Except.ok.injEq] at hres
            have hshape := runStmts_ok_shape env args.returnWithAlias
              args.params _ _ _ _ hr
            by_cases hrwa : args.returnWithAlias
            · right
              obtain ⟨m', hm'⟩ := hshape.2 ⟨[], by simp [hrwa]⟩
              rw [← hres, hm', hrsr]
              exact ⟨m', rfl⟩
            · left
              obtain ⟨ys, hys⟩ := hshape.1
                ⟨[], by simp [hrwa]⟩
              rw [← hres, hys, hrsr]
              simp only [shapeResult]
              exact ⟨_, rfl⟩

/-- Witness for C7's amended theorem at concrete inputs: the nonempty case
with one statement, and the empty case. -/
theorem C7_result_shape_witness :
    (({ params := [{ sql := "S1" }] } : TxArgs).returnSingleRecord = false) ∧
    ((none : Option (JVal → Except String JVal)) = none) ∧
    ((({ params := [{ sql := "S1" }] } : TxArgs).params = [] →
        Transaction envOK { params := [{ sql := "S1" }] } none stateFresh =
          (Except.ok (JVal.arr []), stateFresh)) ∧
     (∀ v, (Transaction envOK { params := [{ sql := "S1" }] } none
          stateFresh).1 = Except.ok v →
        (∃ xs, v = JVal.arr xs) ∨ (∃ m, v = JVal.obj m))) ∧
    ((({ params := [], returnWithAlias := true } : TxArgs).params = [] →
        Transaction envOK { params := [], returnWithAlias := true } none
          stateFresh = (Except.ok (JVal.arr []), stateFresh)) ∧
     (∀ v, (Transaction envOK { params := [], returnWithAlias := true } none
          stateFresh).1 = Except.ok v →
        (∃ xs, v = JVal.arr xs) ∨ (∃ m, v = JVal.obj m))) :=
  ⟨rfl, rfl,
   C7_result_shape envOK { params := [{ sql := "S1" }] } none stateFresh
     rfl rfl,
   C7_result_shape envOK { params := [], returnWithAlias := true } none
     stateFresh rfl rfl⟩

/-! ## Lease balance (C6) -/

/-- Well-nested sequences of Acquire/Release operations: the empty
sequence, a sequence wrapped in one Acquire ... Release pair (reentrant
nesting), and sequential composition. This is the shape TransactionExecutor
produces, since every initialClient is paired with exactly one
releaseClient. -/
inductive LeaseProg where
  | leaf : LeaseProg
  | wrap : LeaseProg → LeaseProg
  | seq : LeaseProg → LeaseProg → LeaseProg

/-- Run a well-nested Acquire/Release sequence against the lease state
(releases are the error-free kind). -/
def runLease : LeaseProg → LeaseState → LeaseState
  | LeaseProg.leaf, s => s
  | LeaseProg.wrap b, s => releaseClient false (runLease b (initialClient s).2)
  | LeaseProg.seq a b, s => runLease b (runLease a s)

/-- An error-free release while the count is at least 2 just decrements
the counter. -/
theorem releaseClient_noerr_dec (s : LeaseState) (c : Nat)
    (hs : s.inst = some c) (hc : 2 ≤ s.count) :
    releaseClient false s = { s with count := s.count - 1 } := by
  have hn : ¬ s.count ≤ 1 := by omega
  simp [releaseClient, hs, hn]

/-- An error-free release at count at most 1 physically returns the
connection to the pool. -/
theorem releaseClient_noerr_ret (s : LeaseState) (c : Nat)
    (hs : s.inst = some c) (hc : s.count ≤ 1) :
    releaseClient false s =
      { s with
          inst := none
          count := 0
          checkedOut := s.checkedOut - 1
          returned := s.returned + 1 } := by
  simp [releaseClient, hs, hc]

/-- While a connection is leased with a positive count, any well-nested
inner sequence returns the lease state exactly as it found it (the nested
acquires and releases only move the counter up and back down). -/
theorem runLease_leased (b : LeaseProg) :
    ∀ (s : LeaseState) (c : Nat), s.inst = some c → 1 ≤ s.count →
      runLease b s = s := by
  induction b with
  | leaf => intro s c hs hc; rfl
  | wrap b ih =>
      intro s c hs hc
      have hacq : (initialClient s).2 = { s with count := s.count + 1 } := by
        simp [initialClient, hs]
      have hinner : runLease b (initialClient s).2 = (initialClient s).2 := by
        refine ih _ c ?_ ?_
        · rw [hacq]
          exact hs
        · rw [hacq]
          exact Nat.le_add_left 1 s.count
      rw [runLease, hinner, hacq]
      rw [releaseClient_noerr_dec { s with count := s.count + 1 } c hs
        (Nat.succ_le_succ hc)]
      simp
  | seq a b iha ihb =>
      intro s c hs hc
      rw [runLease, iha s c hs hc, ihb s c hs hc]

/-- From an unleased state, a well-nested sequence ends unleased with the
pool's checkout count back where it started, and nothing ever discarded. -/
theorem runLease_balance (b : LeaseProg) :
    ∀ s : LeaseState, s.inst = none →
      (runLease b s).inst = none ∧
      (runLease b s).checkedOut = s.checkedOut ∧
      (runLease b s).destroyed = s.destroyed := by
  induction b with
  | leaf => intro s hs; exact ⟨hs, rfl, rfl⟩
  | wrap b ih =>
      intro s hs
      have hacq : (initialClient s).2 =
          { s with
              inst := some s.nextId
              count := 1
              checkedOut := s.checkedOut + 1
              nextId := s.nextId + 1 } := by
        simp [initialClient, hs]
      have hinner : runLease b (initialClient s).2 = (initialClient s).2 := by
        refine runLease_leased b _ s.nextId ?_ ?_ <;> rw [hacq]
      rw [runLease, hinner, hacq]
      simp [releaseClient]
  | seq a b iha ihb =>
      intro s hs
      obtain ⟨h1, h2, h3⟩ := iha s hs
      obtain ⟨h4, h5, h6⟩ := ihb _ h1
      exact ⟨h4, by rw [runLease, h5, h2], by rw [runLease, h6, h3]⟩

/-- C6: acquiring with no connection leased checks a fresh connection out
of the pool with reuse count 1; acquiring while leased returns the same
handle with the count incremented and nothing further checked out; and
every well-nested Acquire/Release sequence started unleased ends unleased
with the net pool checkout back at its starting value, the outermost
Release having physically returned the connection to the pool. -/
theorem C6_lease_balance (s : LeaseState) (b : LeaseProg) :
    (s.inst = none →
      ((initialClient s).2).count = 1 ∧
      ((initialClient s).2).checkedOut = s.checkedOut + 1 ∧
      ((initialClient s).2).inst = some ((initialClient s).1)) ∧
    (∀ c, s.inst = some c →
      (initialClient s).1 = c ∧
      ((initialClient s).2).count = s.count + 1 ∧
      ((initialClient s).2).checkedOut = s.checkedOut ∧
      ((initialClient s).2).inst = some c) ∧
    (s.inst = none →
      (runLease b s).inst = none ∧
      (runLease b s).checkedOut = s.checkedOut ∧
      (runLease b s).destroyed = s.destroyed) ∧
    (s.inst = none →
      (runLease (LeaseProg.wrap b) s).returned = s.returned + 1 ∧
      (runLease (LeaseProg.wrap b) s).checkedOut = s.checkedOut ∧
      (runLease (LeaseProg.wrap b) s).inst = none) := by
  refine ⟨?_, ?_, fun hs => runLease_balance b s hs, ?_⟩
  · intro hs
    simp [initialClient, hs]
  · intro c hc
    simp [initialClient, hc]
  · intro hs
    have hacq : (initialClient s).2 =
        { s with
            inst := some s.nextId
            count := 1
            checkedOut := s.checkedOut + 1
            nextId := s.nextId + 1 } := by
      simp [initialClient, hs]
    have hinner : runLease b (initialClient s).2 = (initialClient s).2 := by
      refine runLease_leased b _ s.nextId ?_ ?_ <;> rw [hacq]
    rw [runLease, hinner, hacq]
    simp [releaseClient]

/-- Witness for C6 at concrete inputs: the fresh unleased pool state, a
nested-reuse sequence (acquire, acquire, release, release, then another
acquire/release pair), and the leased state reached after one acquire. -/
theorem C6_lease_balance_witness :
    (leaseFresh.inst = none) ∧
    (((initialClient leaseFresh).2).count = 1 ∧
     ((initialClient leaseFresh).2).checkedOut = leaseFresh.checkedOut + 1 ∧
     ((initialClient leaseFresh).2).inst =
       some ((initialClient leaseFresh).1)) ∧
    (((initialClient (initialClient leaseFresh).2).1 = 1 ∧
      ((initialClient (initialClient leaseFresh).2).2).count =
        ((initialClient leaseFresh).2).count + 1 ∧
      ((initialClient (initialClient leaseFresh).2).2).checkedOut =
        ((initialClient leaseFresh).2).checkedOut ∧
      ((initialClient (initialClient leaseFresh).2).2).inst = some 1)) ∧
    ((runLease
        (LeaseProg.seq (LeaseProg.wrap (LeaseProg.wrap LeaseProg.leaf))
          (LeaseProg.wrap LeaseProg.leaf)) leaseFresh).inst = none ∧
     (runLease
        (LeaseProg.seq (LeaseProg.wrap (LeaseProg.wrap LeaseProg.leaf))
          (LeaseProg.wrap LeaseProg.leaf)) leaseFresh).checkedOut =
       leaseFresh.checkedOut ∧
     (runLease
        (LeaseProg.seq (LeaseProg.wrap (LeaseProg.wrap LeaseProg.leaf))
          (LeaseProg.wrap LeaseProg.leaf)) leaseFresh).destroyed =
       leaseFresh.destroyed) ∧
    ((runLease (LeaseProg.wrap (LeaseProg.wrap LeaseProg.leaf))
        leaseFresh).returned = leaseFresh.returned + 1 ∧
     (runLease (LeaseProg.wrap (LeaseProg.wrap LeaseProg.leaf))
        leaseFresh).checkedOut = leaseFresh.checkedOut ∧
     (runLease (LeaseProg.wrap (LeaseProg.wrap LeaseProg.leaf))
        leaseFresh).inst = none) :=
  ⟨rfl,
   (C6_lease_balance leaseFresh LeaseProg.leaf).1 rfl,
   (C6_lease_balance (initialClient leaseFresh).2 LeaseProg.leaf).2.1 1 rfl,
   (C6_lease_balance leaseFresh
     (LeaseProg.seq (LeaseProg.wrap (LeaseProg.wrap LeaseProg.leaf))
       (LeaseProg.wrap LeaseProg.leaf))).2.2.1 rfl,
   (C6_lease_balance leaseFresh
     (LeaseProg.wrap LeaseProg.leaf)).2.2.2 rfl⟩

/-! ## GenerateUpdateSQL claims (C9, C10) -/

/-- Substring test, via the occurrence counter. -/
def containsSubstr (needle hay : String) : Bool :=
  countSub needle.toList hay.toList != 0

/-- A pattern planted between two contexts is counted at least once. -/
theorem countSub_plant (needle : List Char) (hne : needle ≠ []) :
    ∀ (pre post : List Char), countSub needle (pre ++ needle ++ post) ≠ 0 := by
  have hpfx : ∀ (p r : List Char), hasPfx p (p ++ r) = true := by
    intro p
    induction p with
    | nil => intro r; rfl
    | cons c cs ih => intro r; simp [hasPfx, ih]
  intro pre
  induction pre with
  | nil =>
      intro post
      cases needle with
      | nil => exact absurd rfl hne
      | cons c cs =>
          have h := hpfx (c :: cs) post
          simp only [List.nil_append, List.cons_append, countSub,
            List.append_eq, List.append_assoc] at h ⊢
          simp [h]
  | cons c pre ih =>
      intro post
      have h := ih post
      simp only [List.cons_append, countSub, List.append_eq,
        List.append_assoc] at h ⊢
      split <;> omega

/-- C9: with an explicit truthy whereClause, GenerateUpdateSQL validates it
with the clause validator (raising its error when validation fails) and,
when it passes and there is something to update, splices it onto the
`WHERE 1 = 1` base with AND; with no explicit clause the WHERE is
synthesized from primary-key equality — `{id: 5, status: true}` on table
users with pkName "id" yields `"id" = '5'` — and a comma-separated
composite pkName ANDs each component's equality. -/
theorem C9_update_where :
    (∀ (columnExists : String → String → Bool) (args : UpdateArgs)
        (w : String), args.whereClause = some w → w ≠ "" →
        (updParamsArray args).isEmpty = false →
      (CheckWhereClause w = false →
        GenerateUpdateSQL columnExists args =
          Except.error "condition operator is illegal") ∧
      (CheckWhereClause w = true →
        GenerateUpdateSQL columnExists args = Except.ok (some
          { sql := "UPDATE " ++ args.tableName ++ " SET " ++
              updSetSql columnExists args ++ " " ++
              ("WHERE 1 = 1" ++ " AND " ++ w) ++ " RETURNING *"
            replacements := (updParamsArray args).map (jsGet args.params)
            aliasName := args.tableName }) ∧
        containsSubstr ("WHERE 1 = 1" ++ " AND " ++ w)
          ("UPDATE " ++ args.tableName ++ " SET " ++
            updSetSql columnExists args ++ " " ++
            ("WHERE 1 = 1" ++ " AND " ++ w) ++ " RETURNING *") = true)) ∧
    (GenerateUpdateSQL (fun _ _ => false)
        { params := [("id", JVal.num 5), ("status", JVal.jbool true)],
          tableName := "users", pkName := "id" } =
      Except.ok (some
        { sql := "UPDATE users SET \"id\" = $1, \"status\" = $2 WHERE 1 = 1 AND \"id\" = '5' RETURNING *"
          replacements := [JVal.num 5, JVal.jbool true]
          aliasName := "users" })) ∧
    (GenerateUpdateSQL (fun _ _ => false)
        { params := [("uid", JVal.num 1), ("org", JVal.str "acme"),
                     ("n", JVal.num 9)],
          tableName := "t", pkName := "uid,org" } =
      Except.ok (some
        { sql := "UPDATE t SET \"uid\" = $1, \"org\" = $2, \"n\" = $3 WHERE 1 = 1 AND \"uid\" = '1' AND \"org\" = 'acme' RETURNING *"
          replacements := [JVal.num 1, JVal.str "acme", JVal.num 9]
          aliasName := "t" })) := by
  refine ⟨?_, rfl, rfl⟩
  intro columnExists args w hw hwne hpa
  constructor
  · intro hcw
    simp [GenerateUpdateSQL, hpa, hw, hwne, hcw]
  · intro hcw
    constructor
    · simp [GenerateUpdateSQL, hpa, hw, hwne, hcw]
    · simp only [containsSubstr, ne_eq]
      have hne : ("WHERE 1 = 1" ++ " AND " ++ w).toList ≠ [] := by
        have hsp : ("WHERE 1 = 1" ++ " AND " ++ w).toList =
            ("WHERE 1 = 1" ++ " AND ").toList ++ w.toList := by
          simp [String.toList, String.data_append]
        rw [hsp]
        intro hnil
        rcases List.append_eq_nil.mp hnil with ⟨h1, -⟩
        exact (by decide : ("WHERE 1 = 1" ++ " AND ").toList ≠ []) h1
      have hplant := countSub_plant (("WHERE 1 = 1" ++ " AND " ++ w).toList)
        hne
        ("UPDATE " ++ args.tableName ++ " SET " ++
          updSetSql columnExists args ++ " ").toList
        (" RETURNING *").toList
      have hsplit : ("UPDATE " ++ args.tableName ++ " SET " ++
            updSetSql columnExists args ++ " " ++
            ("WHERE 1 = 1" ++ " AND " ++ w) ++ " RETURNING *").toList =
          ("UPDATE " ++ args.tableName ++ " SET " ++
            updSetSql columnExists args ++ " ").toList ++
          ("WHERE 1 = 1" ++ " AND " ++ w).toList ++
          (" RETURNING *").toList := by
        simp [String.toList, String.data_append]
      rw [hsplit]
      simpa using hplant

/-- Witness for C9 at a concrete input: an explicit valid whereClause on a
single-key update. -/
theorem C9_update_where_witness :
    (({ params := [("id", JVal.num 5)], tableName := "users",
        whereClause := some "\"employeeId\" = '123'", pkName := "id" } :
        UpdateArgs).whereClause = some "\"employeeId\" = '123'") ∧
    (("\"employeeId\" = '123'" : String) ≠ "") ∧
    ((updParamsArray
        { params := [("id", JVal.num 5)], tableName := "users",
          whereClause := some "\"employeeId\" = '123'",
          pkName := "id" }).isEmpty = false) ∧
    (CheckWhereClause "\"employeeId\" = '123'" = true) ∧
    (GenerateUpdateSQL (fun _ _ => false)
        { params := [("id", JVal.num 5)], tableName := "users",
          whereClause := some "\"employeeId\" = '123'", pkName := "id" } =
      Except.ok (some
        { sql := "UPDATE " ++ "users" ++ " SET " ++
            updSetSql (fun _ _ => false)
              { params := [("id", JVal.num 5)], tableName := "users",
                whereClause := some "\"employeeId\" = '123'",
                pkName := "id" } ++ " " ++
            ("WHERE 1 = 1" ++ " AND " ++ "\"employeeId\" = '123'") ++
            " RETURNING *"
          replacements := (updParamsArray
              { params := [("id", JVal.num 5)], tableName := "users",
                whereClause := some "\"employeeId\" = '123'",
                pkName := "id" }).map
            (jsGet [("id", JVal.num 5)])
          aliasName := "users" }) ∧
     containsSubstr ("WHERE 1 = 1" ++ " AND " ++ "\"employeeId\" = '123'")
        ("UPDATE " ++ "users" ++ " SET " ++
          updSetSql (fun _ _ => false)
            { params := [("id", JVal.num 5)], tableName := "users",
              whereClause := some "\"employeeId\" = '123'",
              pkName := "id" } ++ " " ++
          ("WHERE 1 = 1" ++ " AND " ++ "\"employeeId\" = '123'") ++
          " RETURNING *") = true) :=
  ⟨rfl, by decide, rfl, by decide,
   (C9_update_where.1 (fun _ _ => false)
     { params := [("id", JVal.num 5)], tableName := "users",
       whereClause := some "\"employeeId\" = '123'", pkName := "id" }
     "\"employeeId\" = '123'" rfl (by decide) rfl).2 (by decide)⟩

/-- C10: in the synthesized WHERE clause of GenerateUpdateSQL (no explicit
whereClause), a primary-key component whose value is falsy — 0, the empty
string, false, null or undefined — is rendered as the quoted literal
'null' (via `params[p] || null` inside a template string), not as the
actual value and not as SQL NULL; truthy component values are rendered as
their JS string form (second conjunct: a concrete composite key with a
falsy first component and a truthy second one). -/
theorem C10_falsy_pk_rendered_null (p : String) (v : JVal)
    (hfal : jsFalsy v = true)
    (hpk : splitOnComma p.toList = [p.toList]) :
    (∀ (columnExists : String → String → Bool) (t : String),
      GenerateUpdateSQL columnExists
          { params := [(p, v)], tableName := t, pkName := p } =
        Except.ok (some
          { sql := "UPDATE " ++ t ++ " SET " ++
              updSetSql columnExists
                { params := [(p, v)], tableName := t, pkName := p } ++ " " ++
              ("WHERE 1 = 1" ++ " AND \"" ++ p ++ "\" = '" ++ "null" ++ "'") ++
              " RETURNING *"
            replacements := [v]
            aliasName := t })) ∧
    (GenerateUpdateSQL (fun _ _ => false)
        { params := [("a", JVal.num 0), ("b", JVal.str "x")],
          tableName := "t", pkName := "a,b" } =
      Except.ok (some
        { sql := "UPDATE t SET \"a\" = $1, \"b\" = $2 WHERE 1 = 1 AND \"a\" = 'null' AND \"b\" = 'x' RETURNING *"
          replacements := [JVal.num 0, JVal.str "x"]
          aliasName := "t" })) := by
  refine ⟨?_, rfl⟩
  intro columnExists t
  have hpkarr : updPkArr { params := [(p, v)], tableName := t, pkName := p } =
      [p] := by
    have hpk' : splitOnComma p.data = [p.data] := by
      simpa [String.toList] using hpk
    simp [updPkArr, String.toList, hpk']
  have hpa : updParamsArray
      { params := [(p, v)], tableName := t, pkName := p } = [p] := by
    simp [updParamsArray, hpkarr]
  have hwhere : pkWhere [(p, v)] [p] =
      "WHERE 1 = 1" ++ " AND \"" ++ p ++ "\" = '" ++ "null" ++ "'" := by
    simp [pkWhere, jsGet, jsOrNull, hfal, jsShow]
  have hrepl : [p].map (jsGet [(p, v)]) = [v] := by
    simp [jsGet]
  simp only [GenerateUpdateSQL, hpa, hpkarr, List.isEmpty_cons, hwhere, hrepl]
  rfl

/-- Witness for C10 at a concrete input: pk "id" with value 0. -/
theorem C10_falsy_pk_rendered_null_witness :
    (jsFalsy (JVal.num 0) = true) ∧
    (splitOnComma ("id" : String).toList = [("id" : String).toList]) ∧
    ((∀ (columnExists : String → String → Bool) (t : String),
      GenerateUpdateSQL columnExists
          { params := [("id", JVal.num 0)], tableName := t, pkName := "id" } =
        Except.ok (some
          { sql := "UPDATE " ++ t ++ " SET " ++
              updSetSql columnExists
                { params := [("id", JVal.num 0)], tableName := t,
                  pkName := "id" } ++ " " ++
              ("WHERE 1 = 1" ++ " AND \"" ++ "id" ++ "\" = '" ++ "null" ++
                "'") ++ " RETURNING *"
            replacements := [JVal.num 0]
            aliasName := t })) ∧
     (GenerateUpdateSQL (fun _ _ => false)
        { params := [("a", JVal.num 0), ("b", JVal.str "x")],
          tableName := "t", pkName := "a,b" } =
      Except.ok (some
        { sql := "UPDATE t SET \"a\" = $1, \"b\" = $2 WHERE 1 = 1 AND \"a\" = 'null' AND \"b\" = 'x' RETURNING *"
          replacements := [JVal.num 0, JVal.str "x"]
          aliasName := "t" }))) :=
  ⟨rfl, by decide,
   C10_falsy_pk_rendered_null "id" (JVal.num 0) rfl (by decide)⟩

/-! ## Clause validator claims (C8) -/

/-- Does the joiner regex `\bAND\b|\bOR\b` match at the front of the
remainder, given the previous character? (This is exactly the guard of
`splitJoinersAux`.) -/
def joinAt (prev : Option Char) : List Char → Bool
  | 'A' :: 'N' :: 'D' :: rest => bBefore prev && bAfter rest
  | 'O' :: 'R' :: rest => bBefore prev && bAfter rest
  | _ => false

/-- No position of the scanned remainder matches the joiner regex. -/
def noJoin : Option Char → List Char → Bool
  | _, [] => true
  | prev, c :: rest => !(joinAt prev (c :: rest)) && noJoin (some c) rest

/-- A joiner-free stretch is scanned without a cut: the scanner just
accumulates it. -/
theorem splitJoinersAux_noJoin (prev : Option Char) (l acc : List Char)
    (h : noJoin prev l = true) :
    splitJoinersAux prev l acc = [acc.reverse ++ l] := by
  induction prev, l, acc using splitJoinersAux.induct with
  | case1 prev acc => simp [splitJoinersAux]
  | case2 prev rest acc hcond ih =>
      exfalso
      replace h : (!(joinAt prev ('A' :: 'N' :: 'D' :: rest)) &&
          noJoin (some 'A') ('N' :: 'D' :: rest)) = true := h
      rw [Bool.and_eq_true] at h
      have h1 : joinAt prev ('A' :: 'N' :: 'D' :: rest) = false := by
        simpa using h.1
      replace h1 : (bBefore prev && bAfter rest) = false := h1
      rw [hcond] at h1
      simp at h1
  | case3 prev rest acc hcond ih =>
      replace h : (!(joinAt prev ('A' :: 'N' :: 'D' :: rest)) &&
          noJoin (some 'A') ('N' :: 'D' :: rest)) = true := h
      rw [Bool.and_eq_true] at h
      rw [show splitJoinersAux prev ('A' :: 'N' :: 'D' :: rest) acc =
          (if bBefore prev && bAfter rest then
            acc.reverse :: splitJoinersAux (some 'D') rest []
          else splitJoinersAux (some 'A') ('N' :: 'D' :: rest) ('A' :: acc))
          from rfl]
      rw [if_neg hcond, ih h.2]
      simp
  | case4 prev rest acc hcond ih =>
      exfalso
      replace h : (!(joinAt prev ('O' :: 'R' :: rest)) &&
          noJoin (some 'O') ('R' :: rest)) = true := h
      rw [Bool.and_eq_true] at h
      have h1 : joinAt prev ('O' :: 'R' :: rest) = false := by
        simpa using h.1
      replace h1 : (bBefore prev && bAfter rest) = false := h1
      rw [hcond] at h1
      simp at h1
  | case5 prev rest acc hcond ih =>
      replace h : (!(joinAt prev ('O' :: 'R' :: rest)) &&
          noJoin (some 'O') ('R' :: rest)) = true := h
      rw [Bool.and_eq_true] at h
      rw [show splitJoinersAux prev ('O' :: 'R' :: rest) acc =
          (if bBefore prev && bAfter rest then
            acc.reverse :: splitJoinersAux (some 'R') rest []
          else splitJoinersAux (some 'O') ('R' :: rest) ('O' :: acc))
          from rfl]
      rw [if_neg hcond, ih h.2]
      simp
  | case6 prev c rest acc hA hO ih =>
      have h2 : noJoin (some c) rest = true := by
        replace h : (!(joinAt prev (c :: rest)) && noJoin (some c) rest) =
            true := h
        rw [Bool.and_eq_true] at h
        exact h.2
      rw [splitJoinersAux.eq_def]
      split
      next hx => simp at hx
      next hx =>
        rw [List.cons.injEq] at hx
        exact (hA _ hx.1 hx.2).elim
      next hx =>
        rw [List.cons.injEq] at hx
        exact (hO _ hx.1 hx.2).elim
      next hx =>
        rw [List.cons.injEq] at hx
        obtain ⟨hc, hrest⟩ := hx
        subst hc
        subst hrest
        rw [ih h2]
        simp

/-- With `operatorRequired = false`, once the loop has set `illegal` it
never clears it. -/
theorem opLoop_false_true (st : List Char) :
    ∀ l : List OpPat, opLoop st false l true = true
  | [] => rfl
  | p :: rest => by
      by_cases hhit : opHit st p <;>
        simp [opLoop, hhit, opLoop_false_true st rest]

/-- With `operatorRequired = true`, the loop declares the segment illegal
exactly when no operator pattern matches exactly once. -/
theorem opLoop_true_any (st : List Char) :
    ∀ l : List OpPat, opLoop st true l true = !(l.any (fun p => opHit st p))
  | [] => rfl
  | p :: rest => by
      by_cases hhit : opHit st p <;>
        simp [opLoop, hhit, opLoop_true_any st rest]

/-- CheckWhereClauseOperator with an operator required passes exactly when
some permitted operator pattern occurs exactly once in the (upper-cased)
segment. -/
theorem CheckWhereClauseOperator_req (st : List Char) :
    CheckWhereClauseOperator st true =
      opsList.any (fun p => opHit (st.map upChar) p) := by
  simp [CheckWhereClauseOperator, opLoop_true_any]

/-- CheckWhereClauseOperator with no operator required (the BETWEEN sides)
passes exactly when '=' does not occur exactly once: the every-loop stops
at the first miss, so only the first operator of `this.op` is ever
consulted. -/
theorem CheckWhereClauseOperator_noreq (st : List Char) :
    CheckWhereClauseOperator st false =
      !(countSub ['='] (st.map upChar) == 1) := by
  by_cases hhit : opHit (st.map upChar) (OpPat.sub ['='])
  · have h1 : countSub ['='] (st.map upChar) == 1 := hhit
    simp [CheckWhereClauseOperator, opsList, opLoop, hhit, opLoop_false_true,
      h1]
  · have h1 : ¬ (countSub ['='] (st.map upChar) == 1) := hhit
    simp only [CheckWhereClauseOperator, opsList, opLoop, hhit,
      Bool.false_eq_true, if_false]
    simp [h1]

/-- On a joiner-free clause the validator reduces to the single-segment
operator scan: with the word BETWEEN present the segment must not contain
exactly one '='; otherwise some permitted operator must occur exactly
once. -/
theorem checkWhereChars_noJoin (a : List Char) (hnj : noJoin none a = true) :
    checkWhereChars a =
      (if containsBetween a then
        !(countSub ['='] (a.map upChar) == 1)
      else opsList.any (fun p => opHit (a.map upChar) p)) := by
  unfold checkWhereChars splitJoiners
  rw [splitJoinersAux_noJoin none a [] hnj]
  simp only [List.reverse_nil, List.nil_append]
  by_cases hb : containsBetween a
  · simp [checkStmts, hb, CheckWhereClauseOperator_noreq]
  · simp [checkStmts, hb, CheckWhereClauseOperator_req]

/-- C8 counterexample: the claim says clauses containing a disallowed
token are rejected, and clauses composed solely of permitted operators
joined by AND/OR are accepted. At concrete inputs, an SQL-injection clause
containing ';' and '--' is accepted (there is no token blacklist — only
operator counting), while a single IN predicate whose string literal
contains the word OR is rejected (the splitter cuts inside literals). -/
theorem C8_counterexample :
    (CheckWhereClause "\"a\" = 1; DROP TABLE users --" = true) ∧
    (CheckWhereClause "\"tag\" IN ('OR', 'X')" = false) :=
  ⟨by decide, by decide⟩

/-- C8 amended: the validator accepts or rejects on per-segment operator
occurrence counts alone, after splitting the cleaned clause on word-bounded
AND/OR (even inside quoted literals). The BETWEEN example is accepted, the
double-equality example `"age" = 18 = 20` is rejected, a clause of
predicates joined by AND/OR (including a BETWEEN) is accepted, and on
every joiner-free clause the validator passes exactly when — BETWEEN
present — the segment does not contain exactly one '=', or — otherwise —
some permitted operator pattern occurs exactly once. No token blacklist is
applied. -/
theorem C8_clause_validator :
    (CheckWhereClause "\"age\" BETWEEN 18 AND 65" = true) ∧
    (CheckWhereClause "\"age\" = 18 = 20" = false) ∧
    (CheckWhereClause "\"a\" = 1 AND \"b\" BETWEEN 2 AND 3 OR \"c\" LIKE 'X%'" =
      true) ∧
    (∀ a : List Char, noJoin none a = true →
      checkWhereChars a =
        (if containsBetween a then
          !(countSub ['='] (a.map upChar) == 1)
        else opsList.any (fun p => opHit (a.map upChar) p))) :=
  ⟨by decide, by decide, by decide, checkWhereChars_noJoin⟩

/-- Witness for C8's amended theorem at a concrete joiner-free clause. -/
theorem C8_clause_validator_witness :
    (noJoin none (("\"X\" >= 10" : String).toList) = true) ∧
    (checkWhereChars (("\"X\" >= 10" : String).toList) =
      (if containsBetween (("\"X\" >= 10" : String).toList) then
        !(countSub ['=']
          ((("\"X\" >= 10" : String).toList).map upChar) == 1)
      else opsList.any
        (fun p => opHit ((("\"X\" >= 10" : String).toList).map upChar) p))) :=
  ⟨by decide,
   C8_clause_validator.2.2.2 (("\"X\" >= 10" : String).toList) (by decide)⟩

end PglinkLite
